import Mathlib

/-!
Verification model of the updates-mysoc-ai control plane and its update agent.

The Go sources are embedded shallowly: each Go function that a claim touches
becomes a Lean function over explicit state; the PostgreSQL tables become
lists of rows, the blob store and the agent's disk become association lists
keyed by path, wall-clock times become `Nat`, and every source of randomness
(UUIDs, generated API keys, random hex suffixes) becomes an explicit
parameter.  `crypto/sha256` is embedded as a bit-faithful SHA-256 over byte
lists.
-/

namespace MySoc

/-! ## Bytes, hex encoding and SHA-256 (crypto/sha256, encoding/hex) -/

/-- A byte, kept as `Nat` (values are `< 256` wherever the model produces them). -/
abbrev Byte := Nat

/-- 2^32, the modulus of the 32-bit words SHA-256 works with. -/
def M32 : Nat := 4294967296

/-- Right rotation of a 32-bit word. -/
def rotr (n x : Nat) : Nat := ((x >>> n) ||| (x <<< (32 - n))) % M32

/-- SHA-256 Ch function. -/
def shaCh (x y z : Nat) : Nat := (x &&& y) ^^^ ((x ^^^ (M32 - 1)) &&& z)

/-- SHA-256 Maj function. -/
def shaMaj (x y z : Nat) : Nat := (x &&& y) ^^^ (x &&& z) ^^^ (y &&& z)

/-- SHA-256 big sigma 0. -/
def bigSigma0 (x : Nat) : Nat := rotr 2 x ^^^ rotr 13 x ^^^ rotr 22 x

/-- SHA-256 big sigma 1. -/
def bigSigma1 (x : Nat) : Nat := rotr 6 x ^^^ rotr 11 x ^^^ rotr 25 x

/-- SHA-256 small sigma 0. -/
def smallSigma0 (x : Nat) : Nat := rotr 7 x ^^^ rotr 18 x ^^^ (x >>> 3)

/-- SHA-256 small sigma 1. -/
def smallSigma1 (x : Nat) : Nat := rotr 17 x ^^^ rotr 19 x ^^^ (x >>> 10)

/-- The 64 SHA-256 round constants of FIPS 180-4, written in decimal. -/
def shaK : List Nat :=
  [1116352408, 1899447441, 3049323471, 3921009573, 961987163, 1508970993,
   2453635748, 2870763221, 3624381080, 310598401, 607225278, 1426881987,
   1925078388, 2162078206, 2614888103, 3248222580, 3835390401, 4022224774,
   264347078, 604807628, 770255983, 1249150122, 1555081692, 1996064986,
   2554220882, 2821834349, 2952996808, 3210313671, 3336571891, 3584528711,
   113926993, 338241895, 666307205, 773529912, 1294757372, 1396182291,
   1695183700, 1986661051, 2177026350, 2456956037, 2730485921, 2820302411,
   3259730800, 3345764771, 3516065817, 3600352804, 4094571909, 275423344,
   430227734, 506948616, 659060556, 883997877, 958139571, 1322822218,
   1537002063, 1747873779, 1955562222, 2024104815, 2227730452, 2361852424,
   2428436474, 2756734187, 3204031479, 3329325298]

/-- The SHA-256 initial hash value of FIPS 180-4, written in decimal. -/
def shaH0 : List Nat :=
  [1779033703, 3144134277, 1013904242, 2773480762, 1359893119, 2600822924, 528734635, 1541459225]

/-- Big-endian 8-byte encoding of a length (in bits), as the SHA-256 padding requires. -/
def lenBytes (n : Nat) : List Byte :=
  (List.range 8).map (fun i => (n >>> (8 * (7 - i))) % 256)

/-- SHA-256 padding: append `0x80`, zeros to 56 mod 64, then the 64-bit bit length. -/
def shaPad (msg : List Byte) : List Byte :=
  msg ++ [0x80] ++ List.replicate ((64 - (msg.length + 9) % 64) % 64) 0
      ++ lenBytes (8 * msg.length)

/-- Split a list into 64-byte chunks (the argument's length is the fuel). -/
def chunksAux : Nat → List Byte → List (List Byte)
  | 0, _ => []
  | _, [] => []
  | fuel + 1, l => l.take 64 :: chunksAux fuel (l.drop 64)

/-- Split a padded message into its 64-byte blocks. -/
def chunks64 (l : List Byte) : List (List Byte) := chunksAux l.length l

/-- The 16 initial 32-bit big-endian words of a 64-byte block. -/
def toWords (block : List Byte) : List Nat :=
  (List.range 16).map (fun i =>
    block.getD (4 * i) 0 * 16777216 + block.getD (4 * i + 1) 0 * 65536 +
    block.getD (4 * i + 2) 0 * 256 + block.getD (4 * i + 3) 0)

/-- Extend 16 schedule words to 64. -/
def extendW (w0 : List Nat) : List Nat :=
  (List.range 48).foldl
    (fun w _ =>
      let t := w.length
      w ++ [(smallSigma1 (w.getD (t - 2) 0) + w.getD (t - 7) 0 +
             smallSigma0 (w.getD (t - 15) 0) + w.getD (t - 16) 0) % M32])
    w0

/-- One SHA-256 compression round on the 8-word working state. -/
def shaRound (w : List Nat) (s : List Nat) (t : Nat) : List Nat :=
  match s with
  | [a, b, c, d, e, f, g, h] =>
    let t1 := (h + bigSigma1 e + shaCh e f g + shaK.getD t 0 + w.getD t 0) % M32
    let t2 := (bigSigma0 a + shaMaj a b c) % M32
    [(t1 + t2) % M32, a, b, c, (d + t1) % M32, e, f, g]
  | s => s

/-- SHA-256 compression of one 64-byte block into the running hash. -/
def shaCompress (h : List Nat) (block : List Byte) : List Nat :=
  let w := extendW (toWords block)
  let s := (List.range 64).foldl (shaRound w) h
  List.zipWith (fun x y => (x + y) % M32) h s

/-- Big-endian bytes of one 32-bit word. -/
def wordBytes (w : Nat) : List Byte :=
  [(w >>> 24) % 256, (w >>> 16) % 256, (w >>> 8) % 256, w % 256]

/-- SHA-256 digest (32 bytes) of a byte string. -/
def sha256 (msg : List Byte) : List Byte :=
  (((chunks64 (shaPad msg)).foldl shaCompress shaH0).map wordBytes).flatten

/-- Lower-case hex digit. -/
def hexDigit (n : Nat) : Char := if n < 10 then Char.ofNat (48 + n) else Char.ofNat (87 + n)

/-- Two-character lower-case hex encoding of one byte (encoding/hex). -/
def byteHex (b : Byte) : String := String.mk [hexDigit (b / 16), hexDigit (b % 16)]

/-- Lower-case hex encoding of a byte string (hex.EncodeToString). -/
def bytesToHex (bs : List Byte) : String := String.join (bs.map byteHex)

/-- Bytes of an ASCII string (the model's strings are all ASCII). -/
def strBytes (s : String) : List Byte := s.data.map Char.toNat

/-- Decode bytes back to a string (inverse of `strBytes` on ASCII data). -/
def bytesToStr (bs : List Byte) : String := String.mk (bs.map Char.ofNat)

/-- Hex SHA-256 of a string, as `sha256.Sum256([]byte(s))` + `hex.EncodeToString`. -/
def sha256hexStr (s : String) : String := bytesToHex (sha256 (strBytes s))

/-! ## Association lists: the blob store's flat namespace and the agent's disk -/

/-- Look up a key (first hit) in an association list. -/
def assocGet [DecidableEq κ] : List (κ × α) → κ → Option α
  | [], _ => none
  | (k', a) :: m, k => if k' = k then some a else assocGet m k

/-- Overwrite a key's entry in an association list, appending when absent. -/
def assocSet [DecidableEq κ] : List (κ × α) → κ → α → List (κ × α)
  | [], k, a => [(k, a)]
  | (k', b) :: m, k, a => if k' = k then (k, a) :: m else (k', b) :: assocSet m k a

/-- Remove a key's entry from an association list. -/
def assocDel [DecidableEq κ] : List (κ × α) → κ → List (κ × α)
  | [], _ => []
  | (k', a) :: m, k => if k' = k then assocDel m k else (k', a) :: assocDel m k

/-! ## Server data model (pkg/types, migrations/001_initial.up.sql)

Rows keep the columns the claimed operations read or write; the
`created_at`/`updated_at` bookkeeping columns and the JSONB `limits` blob are
not modelled (no claim mentions them). -/

/-- License row (`licenses` table / `types.License`). Times are `Nat` ticks. -/
structure License where
  id : String
  licenseKey : String
  customerId : String
  customerName : String
  licenseType : String
  products : List String
  features : List String
  issuedAt : Nat
  expiresAt : Nat
  boundTo : String
  isActive : Bool
deriving DecidableEq, Repr

/-- Reported per-product state inside a heartbeat (`types.ProductStatus`);
only the fields the heartbeat handler reads are kept. -/
structure ProductStatus where
  name : String
  version : String
  channel : String
deriving DecidableEq, Repr

/-- Heartbeat payload (`types.Heartbeat`); the metrics blocks are opaque to the
handler and are not modelled. -/
structure Heartbeat where
  instanceId : String
  products : List ProductStatus
deriving DecidableEq, Repr

/-- Instance row (`instances` table / `types.Instance`). -/
structure Instance where
  id : String
  instanceId : String
  instanceType : String
  hostname : String
  licenseId : String
  apiKeyHash : String
  lastHeartbeat : Option Nat
  lastHeartbeatData : Option Heartbeat
  status : String
deriving DecidableEq, Repr

/-- One artifact entry of a release manifest (`types.Artifact`). -/
structure Artifact where
  name : String
  arch : String
  size : Nat
  checksum : String
deriving DecidableEq, Repr

/-- Release manifest (`types.Manifest`). -/
structure Manifest where
  product : String
  version : String
  channel : String
  artifacts : List Artifact
deriving DecidableEq, Repr

/-- Release row (`releases` table / `types.Release`).  `artifactPath` holds the
base filename of the stored artifact (handlers apply `filepath.Base` before
hitting the store, so only the base name is observable). -/
structure Release where
  id : String
  productName : String
  version : String
  channel : String
  manifest : Manifest
  artifactPath : String
  artifactSize : Nat
  checksum : String
  signature : String
  releaseNotes : String
  minUpdaterVersion : String
  releasedAt : Nat
deriving DecidableEq, Repr

/-- Release-query response (`types.ReleaseInfo`). -/
structure ReleaseInfo where
  product : String
  currentVersion : String
  latestVersion : String
  updateAvailable : Bool
  channel : String
  downloadURL : String
  checksum : String
  size : Nat
  releaseNotes : String
  releasedAt : Nat
deriving DecidableEq, Repr

/-- Key of the blob store's flat namespace: `(product, version, filename)`. -/
abbrev BlobKey := String × String × String

/-- The server's shared mutable state: the three tables plus the blob store. -/
structure ServerState where
  licenses : List License
  instances : List Instance
  releases : List Release
  blobs : List (BlobKey × List Byte)
deriving DecidableEq, Repr

/-! ## Storage (internal/server/storage, LocalStorage) -/

/-- `LocalStorage.Save`: `os.Create` truncates/creates the file at its final
path, then `io.Copy` writes whatever the reader delivers; a reader error
surfaces only after those bytes are on disk, so the partial file stays
visible.  `delivered` is what the reader produced and `ok` whether it then
reached EOF (`false` = mid-stream error). -/
def localSave (bs : List (BlobKey × List Byte)) (product version filename : String)
    (delivered : List Byte) (ok : Bool) : Except String String × List (BlobKey × List Byte) :=
  let bs1 := assocSet bs (product, version, filename) delivered
  if ok then (Except.ok (product ++ "/" ++ version ++ "/" ++ filename), bs1)
  else (Except.error "failed to write file", bs1)

/-- Successful `Save` as used by the upload paths. -/
def blobPut (st : ServerState) (product version filename : String) (content : List Byte) :
    ServerState :=
  { st with blobs := (localSave st.blobs product version filename content true).2 }

/-- `LocalStorage.Get`ted content for a key (read side). -/
def blobGet (st : ServerState) (product version filename : String) : Option (List Byte) :=
  assocGet st.blobs (product, version, filename)

/-- `LocalStorage.Delete`. -/
def blobDelete (st : ServerState) (product version filename : String) : ServerState :=
  { st with blobs := assocDel st.blobs (product, version, filename) }

/-! ## License and instance repositories (internal/server/licensing) -/

/-- `Repository.GetByKey`: `SELECT ... WHERE license_key = $1`. -/
def licenseGetByKey (st : ServerState) (key : String) : Option License :=
  st.licenses.find? (fun l => l.licenseKey == key)

/-- `Repository.Update`: `UPDATE licenses SET customer_name, products, features,
limits, expires_at, bound_to, is_active WHERE id = $1` (the key, customer id
and type columns are not in the SET list). -/
def licenseUpdate (st : ServerState) (l : License) : ServerState :=
  { st with licenses := st.licenses.map (fun x =>
      if x.id = l.id then
        { x with customerName := l.customerName, products := l.products,
                 features := l.features, expiresAt := l.expiresAt,
                 boundTo := l.boundTo, isActive := l.isActive }
      else x) }

/-- `InstanceRepository.GetByInstanceID`: `SELECT ... WHERE instance_id = $1`. -/
def instanceGetByInstanceID (st : ServerState) (instanceId : String) : Option Instance :=
  st.instances.find? (fun i => i.instanceId == instanceId)

/-- `InstanceRepository.Create`: INSERT of a fresh row (`Create` assigns the
row a fresh uuid; the model's caller passes that uuid in the row). -/
def instanceCreate (st : ServerState) (inst : Instance) : ServerState :=
  { st with instances := st.instances ++ [inst] }

/-- `InstanceRepository.Update`: `UPDATE instances SET hostname, api_key_hash,
status WHERE id = $1`. -/
def instanceUpdate (st : ServerState) (inst : Instance) : ServerState :=
  { st with instances := st.instances.map (fun x =>
      if x.id = inst.id then
        { x with hostname := inst.hostname, apiKeyHash := inst.apiKeyHash,
                 status := inst.status }
      else x) }

/-- `InstanceRepository.UpdateHeartbeat`: `UPDATE instances SET last_heartbeat,
last_heartbeat_data, status = online WHERE instance_id = $1` (zero matched
rows is not an error). -/
def updateHeartbeat (st : ServerState) (instanceId : String) (hb : Heartbeat) (now : Nat) :
    ServerState :=
  { st with instances := st.instances.map (fun i =>
      if i.instanceId = instanceId then
        { i with lastHeartbeat := some now, lastHeartbeatData := some hb, status := "online" }
      else i) }

/-! ## Licensing service (internal/server/licensing/service.go) -/

/-- `HashAPIKey`: hex SHA-256 of the key. -/
def hashAPIKey (apiKey : String) : String := sha256hexStr apiKey

/-- ASCII lower-casing (strings.ToLower on the model's ASCII data). -/
def lowerStr (s : String) : String := String.mk (s.data.map Char.toLower)

/-- strings.ReplaceAll with a single-character pattern and replacement. -/
def replaceChar (s : String) (from_ to_ : Char) : String :=
  String.mk (s.data.map (fun c => if c = from_ then to_ else c))

/-- `generateInstanceID`: `<lower(type)>-<lower(hostname) with dots replaced by
dashes>`; when the hostname is empty, `<lower(type)>-<4 random bytes hex>`,
with the random hex passed in explicitly. -/
def generateInstanceID (license : License) (hostname : String) (randHex : String) : String :=
  let pfx := lowerStr license.licenseType
  if hostname ≠ "" then
    pfx ++ "-" ++ replaceChar (lowerStr hostname) '.' '-'
  else
    pfx ++ "-" ++ randHex

/-- `getConfigTemplate`. -/
def getConfigTemplate (licenseType : String) : String :=
  if licenseType = "siemcore" ∨ licenseType = "siemcore-lite" then "siemcore-standard"
  else if licenseType = "mysoc-cloud" then "mysoc-cloud"
  else "siemcore-standard"

/-- A product entry of the install manifest (`types.ProductInstall`). -/
structure ProductInstall where
  name : String
  version : String
  channel : String
deriving DecidableEq, Repr

/-- Install manifest returned by activation (`types.InstallManifest`). -/
structure InstallManifest where
  products : List ProductInstall
  configTemplate : String
  securityBaseline : String
deriving DecidableEq, Repr

/-- `buildInstallManifest`: base product set by license type plus the license's
extra products, deduplicated by name. -/
def buildInstallManifest (license : License) : InstallManifest :=
  let base : List ProductInstall :=
    if license.licenseType = "siemcore" ∨ license.licenseType = "siemcore-lite" then
      [⟨"siemcore-api", "latest", "stable"⟩, ⟨"siemcore-collector", "latest", "stable"⟩,
       ⟨"siemcore-frontend", "latest", "stable"⟩, ⟨"detection-rules", "latest", "stable"⟩]
    else if license.licenseType = "mysoc-cloud" then
      [⟨"mysoc-api", "latest", "stable"⟩, ⟨"mysoc-frontend", "latest", "stable"⟩]
    else []
  let products := license.products.foldl (fun acc p =>
    if acc.any (fun e => e.name == p) then acc
    else acc ++ [⟨p, "latest", "stable"⟩]) base
  ⟨products, getConfigTemplate license.licenseType, "cis-level1"⟩

/-- Activation request (`types.LicenseActivationRequest`). -/
structure LicenseActivationRequest where
  licenseKey : String
  hostname : String
  machineId : String
deriving DecidableEq, Repr

/-- Instance credentials in the activation response (`types.InstanceInfo`). -/
structure InstanceInfo where
  id : String
  name : String
  apiKey : String
deriving DecidableEq, Repr

/-- Activation response (`types.LicenseActivationResponse`); the JSON field
`instance` is spelled `instanceInfo` (Lean keyword clash). -/
structure LicenseActivationResponse where
  success : Bool
  error : String
  license : Option License
  instanceInfo : Option InstanceInfo
  install : Option InstallManifest
deriving DecidableEq, Repr

/-- Refusal response carrying only the error string. -/
def errResp (e : String) : LicenseActivationResponse :=
  { success := false, error := e, license := none, instanceInfo := none, install := none }

/-- `Service.ActivateLicense`.  Explicit inputs replace the ambient effects:
`now` the clock, `randHex` the 4-byte random hex used only for an empty
hostname, `apiKey` the generated `sk_inst_...` key, `newUuid` the uuid a
freshly created instance row receives. -/
def activateLicense (st : ServerState) (req : LicenseActivationRequest)
    (now : Nat) (randHex : String) (apiKey : String) (newUuid : String) :
    LicenseActivationResponse × ServerState :=
  match licenseGetByKey st req.licenseKey with
  | none => (errResp "invalid license key", st)
  | some license =>
    if !license.isActive then (errResp "license is not active", st)
    else if license.expiresAt < now then (errResp "license has expired", st)
    else if license.boundTo ≠ "" ∧ license.boundTo ≠ req.machineId then
      (errResp "license is bound to a different machine", st)
    else
      let instanceId := generateInstanceID license req.hostname randHex
      let apiKeyHash := hashAPIKey apiKey
      let (inst, st1) :=
        match instanceGetByInstanceID st instanceId with
        | some existing =>
          let updated :=
            { existing with hostname := req.hostname, apiKeyHash := apiKeyHash,
                            status := "online" }
          (updated, instanceUpdate st updated)
        | none =>
          let fresh : Instance :=
            { id := newUuid, instanceId := instanceId, instanceType := license.licenseType,
              hostname := req.hostname, licenseId := license.id, apiKeyHash := apiKeyHash,
              lastHeartbeat := none, lastHeartbeatData := none, status := "online" }
          (fresh, instanceCreate st fresh)
      let (license2, st2) :=
        if license.boundTo = "" ∧ req.machineId ≠ "" then
          let bound := { license with boundTo := req.machineId }
          (bound, licenseUpdate st1 bound)
        else (license, st1)
      ({ success := true, error := "", license := some license2,
         instanceInfo := some ⟨inst.id, inst.instanceId, apiKey⟩,
         install := some (buildInstallManifest license2) }, st2)

/-- `Service.ValidateLicense`: a pure lookup by key. -/
def validateLicense (st : ServerState) (licenseKey : String) : Option License :=
  licenseGetByKey st licenseKey

/-- Response of the license-validate endpoint. -/
structure ValidateResponse where
  status : Nat
  valid : Bool
  expiresAt : Option Nat
deriving DecidableEq, Repr

/-- `Server.handleLicenseValidate`: 404/`valid:false` when the row is absent,
otherwise 200 with `valid := license.IsActive`.  The state is returned to make
the handler's read-only nature a theorem. -/
def handleLicenseValidate (st : ServerState) (licenseKey : String) :
    ValidateResponse × ServerState :=
  match validateLicense st licenseKey with
  | none => (⟨404, false, none⟩, st)
  | some license => (⟨200, license.isActive, some license.expiresAt⟩, st)

/-! ## Release catalog (internal/server/releases) -/

/-- The row `ORDER BY released_at DESC LIMIT 1` returns: a row of maximal
`released_at` (the database breaks ties arbitrarily; the model keeps the
earliest such row). -/
def maxByReleasedAt : List Release → Option Release
  | [] => none
  | r :: rs =>
    match maxByReleasedAt rs with
    | none => some r
    | some b => if b.releasedAt > r.releasedAt then some b else some r

/-- `Repository.GetLatestByProduct`: `WHERE product_name = $1 AND channel = $2
ORDER BY released_at DESC LIMIT 1`. -/
def getLatestByProduct (st : ServerState) (product channel : String) : Option Release :=
  maxByReleasedAt (st.releases.filter (fun r => r.productName == product && r.channel == channel))

/-- `Service.GetLatestRelease`: wraps the latest row into a `ReleaseInfo` with
`update_available := current_version == "" || current_version != latest`. -/
def getLatestRelease (st : ServerState) (product channel currentVersion : String) :
    Option ReleaseInfo :=
  match getLatestByProduct st product channel with
  | none => none
  | some release =>
    some { product := release.productName, currentVersion := currentVersion,
           latestVersion := release.version,
           updateAvailable := currentVersion == "" || currentVersion != release.version,
           channel := release.channel,
           downloadURL := "/api/v1/releases/" ++ release.productName ++ "/" ++
                          release.version ++ "/download",
           checksum := release.checksum, size := release.artifactSize,
           releaseNotes := release.releaseNotes, releasedAt := release.releasedAt }

/-- Upload request of `Service.CreateRelease` (multipart fields plus the
uploaded stream's bytes; `fileSize` is the multipart header's size). -/
structure CreateReleaseRequest where
  productName : String
  version : String
  channel : String
  releaseNotes : String
  minUpdaterVersion : String
  filename : String
  fileSize : Nat
  fileBytes : List Byte
deriving DecidableEq, Repr

/-- `Service.CreateRelease`: save the stream to the store while hashing it,
then INSERT the release row with the computed checksum; the INSERT fails on
the schema's `UNIQUE(product_name, version)` and the artifact is then deleted
as best-effort compensation. -/
def createRelease (st : ServerState) (req : CreateReleaseRequest) (newUuid : String)
    (now : Nat) : Option Release × ServerState :=
  let st1 := blobPut st req.productName req.version req.filename req.fileBytes
  let checksum := bytesToHex (sha256 req.fileBytes)
  let release : Release :=
    { id := newUuid, productName := req.productName, version := req.version,
      channel := req.channel,
      manifest := ⟨req.productName, req.version, req.channel,
                   [⟨req.filename, "", req.fileSize, checksum⟩]⟩,
      artifactPath := req.filename, artifactSize := req.fileSize, checksum := checksum,
      signature := "", releaseNotes := req.releaseNotes,
      minUpdaterVersion := req.minUpdaterVersion, releasedAt := now }
  if st.releases.any (fun r => r.productName == req.productName && r.version == req.version) then
    (none, blobDelete st1 req.productName req.version req.filename)
  else
    (some release, { st1 with releases := st1.releases ++ [release] })

/-- `Server.handleUploadBinary` (`PUT /api/v1/releases/:p/:v/:f`): saves the
body to the store at the named key and touches no release row. -/
def handleUploadBinary (st : ServerState) (product version filename : String)
    (body : List Byte) : ServerState :=
  blobPut st product version filename body

/-- P3's invariant as an executable check: every release row's stored artifact
hashes to the row's checksum. -/
def checksumOk (st : ServerState) : Bool :=
  st.releases.all (fun rel =>
    match blobGet st rel.productName rel.version rel.artifactPath with
    | none => true
    | some content => bytesToHex (sha256 content) == rel.checksum)

/-! ## Heartbeat endpoint (Server.handleHeartbeat) -/

/-- Result of the heartbeat endpoint: the HTTP status, the `updates` array and
the state after the handler ran. -/
structure HeartbeatResult where
  status : Nat
  updates : List ReleaseInfo
  state : ServerState
deriving DecidableEq, Repr

/-- The update offer the handler computes for one reported product: the
latest-release info, kept only when `update_available` is set. -/
def offerFor (st : ServerState) (p : ProductStatus) : Option ReleaseInfo :=
  match getLatestRelease st p.name p.channel p.version with
  | some info => if info.updateAvailable then some info else none
  | none => none

/-- `Server.handleHeartbeat`: 400 on an empty `instance_id`; otherwise apply
the registry update (a no-op for an unknown instance), collect the offers for
the reported products, and answer 200. -/
def handleHeartbeat (st : ServerState) (hb : Heartbeat) (now : Nat) : HeartbeatResult :=
  if hb.instanceId = "" then ⟨400, [], st⟩
  else
    let st1 := updateHeartbeat st hb.instanceId hb now
    ⟨200, hb.products.filterMap (offerFor st1), st1⟩

/-! ## Agent host model (internal/updater, cmd/mysoc-updater)

The agent's disk is an association list from absolute path to byte content.
External effects are explicit: downloaded bytes and `systemctl` outcomes come
in as parameters, and every executed command is logged. -/

/-- The agent host's file system. -/
abbrev FS := List (String × List Byte)

/-- `copyFile` (update/files.go): fails when the source cannot be opened,
otherwise creates/truncates the destination with the source's content. -/
def copyFile (fs : FS) (src dst : String) : Bool × FS :=
  match assocGet fs src with
  | none => (false, fs)
  | some content => (true, assocSet fs dst content)

/-- `os.Rename`: move the source's content to the destination. -/
def renameFile (fs : FS) (src dst : String) : Bool × FS :=
  match assocGet fs src with
  | none => (false, fs)
  | some content => (true, assocSet (assocDel fs src) dst content)

/-- One managed product's config (`config.ProductConfig`). -/
structure ProductConfig where
  name : String
  service : String
  binary : String
deriving DecidableEq, Repr

/-- The slice of the agent config the update paths read. -/
structure AgentConfig where
  instanceType : String
  products : List ProductConfig
deriving DecidableEq, Repr

/-- `config.BaseDir`. -/
def baseDir (instanceType : String) : String :=
  if instanceType = "mysoc" ∨ instanceType = "mysoc-cloud" then "/opt/mysoc"
  else "/opt/siemcore"

/-- Path of a product's version file. -/
def versionFilePath (cfg : AgentConfig) (productName : String) : String :=
  baseDir cfg.instanceType ++ "/updater/versions/" ++ productName ++ ".version"

/-- Path of an in-flight download: `<base>/updater/temp/<product>-<version>`. -/
def tempPath (cfg : AgentConfig) (productName version : String) : String :=
  baseDir cfg.instanceType ++ "/updater/temp/" ++ productName ++ "-" ++ version

/-- Path of a backup: `<base>/updater/backups/<product>.<version>.bak`. -/
def backupPath (cfg : AgentConfig) (productName version : String) : String :=
  baseDir cfg.instanceType ++ "/updater/backups/" ++ productName ++ "." ++ version ++ ".bak"

/-- Go's `strings.TrimSpace` on the model's ASCII strings. -/
def trimSpace (s : String) : String :=
  let ws := fun c => c = ' ' ∨ c = '\n' ∨ c = '\t' ∨ c = '\r'
  String.mk (((s.data.dropWhile ws).reverse.dropWhile ws).reverse)

/-- `Updater.getCurrentVersion` / cmd `getCurrentVersion`: the trimmed version
file, or `""` when it cannot be read. -/
def getCurrentVersion (fs : FS) (cfg : AgentConfig) (productName : String) : String :=
  match assocGet fs (versionFilePath cfg productName) with
  | none => ""
  | some data => trimSpace (bytesToStr data)

/-- Equality of `Except` results is decidable. -/
instance [DecidableEq ε] [DecidableEq α] : DecidableEq (Except ε α) := fun x y =>
  match x, y with
  | .ok a, .ok b =>
    if h : a = b then isTrue (congrArg Except.ok h)
    else isFalse (fun hh => h (Except.ok.inj hh))
  | .error a, .error b =>
    if h : a = b then isTrue (congrArg Except.error h)
    else isFalse (fun hh => h (Except.error.inj hh))
  | .ok _, .error _ => isFalse (fun hh => Except.noConfusion hh)
  | .error _, .ok _ => isFalse (fun hh => Except.noConfusion hh)

/-- Outcome of one apply/rollback run: the returned error (if any), the final
disk, and the `systemctl` commands that were executed, in order. -/
structure AgentOutcome where
  result : Except String Unit
  fs : FS
  cmds : List (List String)
deriving DecidableEq, Repr

/-- `Updater.ApplyUpdate`.  `download` is the downloaded content (`none` = the
download failed) and `startOk` the outcome of the first `systemctl start`; the
outcomes of `stop` and of the rollback's second `start` are ignored by the
code and so take no parameter.  `chmod` is a permission no-op here. -/
def applyUpdate (fs0 : FS) (cfg : AgentConfig) (productName : String) (info : ReleaseInfo)
    (download : Option (List Byte)) (startOk : Bool) : AgentOutcome :=
  match cfg.products.find? (fun p => p.name == productName) with
  | none => ⟨Except.error "product not found in config", fs0, []⟩
  | some productCfg =>
    match download with
    | none => ⟨Except.error "failed to download", fs0, []⟩
    | some bytes =>
      let fs1 := assocSet fs0 (tempPath cfg productName info.latestVersion) bytes
      let currentVersion := getCurrentVersion fs1 cfg productName
      let fs2 :=
        if currentVersion ≠ "" then
          match assocGet fs1 productCfg.binary with
          | some _ =>
            (copyFile fs1 productCfg.binary (backupPath cfg productName currentVersion)).2
          | none => fs1
        else fs1
      let cmds0 :=
        if productCfg.service ≠ "" then [["systemctl", "stop", productCfg.service]] else []
      match renameFile fs2 (tempPath cfg productName info.latestVersion) productCfg.binary with
      | (false, fs3) =>
        let fs4 := (copyFile fs3 (backupPath cfg productName currentVersion) productCfg.binary).2
        ⟨Except.error "failed to install new version", fs4, cmds0⟩
      | (true, fs3) =>
        if productCfg.service ≠ "" ∧ startOk = false then
          let fs4 :=
            (copyFile fs3 (backupPath cfg productName currentVersion) productCfg.binary).2
          ⟨Except.error "failed to start service after update", fs4,
           cmds0 ++ [["systemctl", "start", productCfg.service],
                     ["systemctl", "start", productCfg.service]]⟩
        else
          let cmds1 := cmds0 ++
            (if productCfg.service ≠ "" then [["systemctl", "start", productCfg.service]] else [])
          ⟨Except.ok (), assocSet fs3 (versionFilePath cfg productName)
                           (strBytes info.latestVersion), cmds1⟩

/-! ## Explicit rollback command (cmd rollback.go, runRollback) -/

/-- strings byte-wise lexicographic `<` (Go string comparison, ASCII data). -/
def strLtB : List Char → List Char → Bool
  | [], [] => false
  | [], _ :: _ => true
  | _ :: _, [] => false
  | a :: as, b :: bs =>
    if a.toNat < b.toNat then true
    else if b.toNat < a.toNat then false
    else strLtB as bs

/-- Go `strings.HasPrefix`. -/
def hasPfx (s pfx : String) : Bool := pfx.data.isPrefixOf s.data

/-- Go `strings.HasSuffix`. -/
def hasSfx (s sfx : String) : Bool := sfx.data.isSuffixOf s.data

/-- Go `strings.Split` with a one-character separator, on the char level. -/
def splitOnChar (sep : Char) : List Char → List (List Char)
  | [] => [[]]
  | c :: rest =>
    let r := splitOnChar sep rest
    if c = sep then [] :: r
    else
      match r with
      | [] => [[c]]
      | h :: t => (c :: h) :: t

/-- `strings.Split(s, sep)` for a one-character separator. -/
def splitStr (s : String) (sep : Char) : List String :=
  (splitOnChar sep s.data).map String.mk

/-- Insert into a sorted list of strings (byte-wise order). -/
def insertSorted (s : String) : List String → List String
  | [] => [s]
  | t :: ts => if strLtB t.data s.data then t :: insertSorted s ts else s :: t :: ts

/-- `os.ReadDir` name order: sorted by filename. -/
def sortStrings (l : List String) : List String := l.foldr insertSorted []

/-- Directory listing: the names under `dirPfx`, sorted. -/
def dirList (fs : FS) (dirPfx : String) : List String :=
  sortStrings (fs.filterMap (fun kv =>
    if hasPfx kv.1 dirPfx then some (String.mk (kv.1.data.drop dirPfx.data.length)) else none))

/-- The backup-selection loop of `runRollback`: keep entries named
`<product>.….bak` with at least three dot-separated parts, extract the
SECOND dot-separated part as the version, and keep the entry whose extracted
version is largest under Go's lexicographic string `>` (first hit on ties).
Returns `(filename, extracted version)`. -/
def selectBackup (productName : String) (entries : List String) : Option (String × String) :=
  entries.foldl (fun acc nm =>
    if hasPfx nm (productName ++ ".") && hasSfx nm ".bak" then
      let parts := splitStr nm '.'
      if parts.length ≥ 3 then
        let version := parts.getD 1 ""
        match acc with
        | none => some (nm, version)
        | some (bn, bv) => if strLtB bv.data version.data then some (nm, version) else some (bn, bv)
      else acc
    else acc) none

/-- `runRollback` (after config loading): select the backup, stop the service,
back up the current binary as `<name>.<ver>.current.bak`, copy the backup over
the target, write the extracted version to the version file, start the
service.  `startOk` is the final `systemctl start`'s outcome. -/
def runRollback (fs0 : FS) (cfg : AgentConfig) (productName : String) (startOk : Bool) :
    AgentOutcome :=
  match cfg.products.find? (fun p => p.name == productName) with
  | none => ⟨Except.error "product not found in configuration", fs0, []⟩
  | some productCfg =>
    let backupDir := baseDir cfg.instanceType ++ "/updater/backups"
    match selectBackup productName (dirList fs0 (backupDir ++ "/")) with
    | none => ⟨Except.error "no backup found", fs0, []⟩
    | some (latestBackup, latestVersion) =>
      let backupPath := backupDir ++ "/" ++ latestBackup
      let cmds0 := [["systemctl", "stop", productCfg.service]]
      let currentVersion := getCurrentVersion fs0 cfg productName
      let fs1 :=
        if currentVersion ≠ "" then
          (copyFile fs0 productCfg.binary
            (backupDir ++ "/" ++ productName ++ "." ++ currentVersion ++ ".current.bak")).2
        else fs0
      match copyFile fs1 backupPath productCfg.binary with
      | (false, fs2) => ⟨Except.error "failed to restore backup", fs2, cmds0⟩
      | (true, fs2) =>
        let fs3 := assocSet fs2 (versionFilePath cfg productName) (strBytes latestVersion)
        let cmds1 := cmds0 ++ [["systemctl", "start", productCfg.service]]
        if startOk then ⟨Except.ok (), fs3, cmds1⟩
        else ⟨Except.error "failed to start service", fs3, cmds1⟩

/-! ## HTTP routing and admin auth (internal/server/api, setupRoutes + adminAuth) -/

/-- `Server.adminAuth`: configured empty key = no check at all; otherwise the
`X-API-Key` header, falling back to the `api_key` query parameter when the
header is empty, must equal the configured key. -/
def adminAuth (configKey headerKey queryKey : String) : Bool :=
  if configKey = "" then true
  else
    let apiKey := if headerKey = "" then queryKey else headerKey
    apiKey == configKey

/-- The routes `setupRoutes` registers (names, not chi patterns). -/
inductive Route
  | health | directDownload | licenseActivate | licenseValidate
  | releasesList | releaseUpload | releasesByProduct | releaseLatest
  | releaseGet | releaseDownload | binaryUpload
  | heartbeat | instancesList | instanceGet | instanceDelete
  | licensesList | licenseCreate | licenseGetAdmin | licenseUpdateAdmin | licenseDeleteAdmin
deriving DecidableEq, Repr

/-- Which routes `setupRoutes` wraps in `adminAuth` (`r.With(s.adminAuth)`):
exactly the binary upload, the instance delete and the license write routes.
`POST /api/v1/releases` (the multipart release upload) carries a
"Requires admin auth" comment but no middleware. -/
def gated : Route → Bool
  | .binaryUpload => true
  | .instanceDelete => true
  | .licenseCreate => true
  | .licenseUpdateAdmin => true
  | .licenseDeleteAdmin => true
  | _ => false

/-- Outcome of routing one request through the middleware stack. -/
inductive AuthOutcome
  | handled
  | unauthorized
deriving DecidableEq, Repr

/-- Dispatch: gated routes pass through `adminAuth` (401 on refusal), the rest
go straight to their handler. -/
def dispatch (configKey headerKey queryKey : String) (rt : Route) : AuthOutcome :=
  if gated rt then
    if adminAuth configKey headerKey queryKey then .handled else .unauthorized
  else .handled

/-! ## Spec-worded predicate (for the refinement comparison of the validate claim) -/

/-- Modelled from the wording of the §3 invariant: a license is usable iff
`is_active ∧ now < expires_at ∧ (bound_to = ∅ ∨ bound_to = request.machine_id)`.
This is the SPEC side of the comparison; the code side is
`handleLicenseValidate`. -/
def specLicenseUsable (l : License) (now : Nat) (machineId : String) : Bool :=
  l.isActive && decide (now < l.expiresAt) && (l.boundTo == "" || l.boundTo == machineId)

/-! ## Concrete fixtures for witnesses and counterexamples -/

/-- Server state with no rows at all. -/
def stEmpty : ServerState := ⟨[], [], [], []⟩

/-- A license already bound to machine `m-1`. -/
def wLicC1 : License :=
  ⟨"lic-9", "SIEM-BBBB-0000-0000-0000", "c-1", "Acme", "siemcore", [], [], 0, 1000, "m-1", true⟩

/-- State holding only `wLicC1`. -/
def wStC1 : ServerState := ⟨[wLicC1], [], [], []⟩

/-- An active but expired license (expiry tick 5). -/
def cexLicC3 : License :=
  ⟨"lic-3", "SIEM-CCCC-0000-0000-0000", "c-1", "Acme", "siemcore", [], [], 0, 5, "", true⟩

/-- State holding only `cexLicC3`. -/
def cexStC3 : ServerState := ⟨[cexLicC3], [], [], []⟩

/-- A release with the higher version string but the older upload date. -/
def wRelA : Release :=
  ⟨"r-a", "siemcore-api", "v2.0.0", "stable", ⟨"siemcore-api", "v2.0.0", "stable", []⟩,
   "siemcore-linux-amd64", 7, "ck-a", "", "", "", 100⟩

/-- A release with the lower version string but the newer upload date. -/
def wRelB : Release :=
  ⟨"r-b", "siemcore-api", "v1.0.1", "stable", ⟨"siemcore-api", "v1.0.1", "stable", []⟩,
   "siemcore-linux-amd64", 9, "ck-b", "", "", "", 200⟩

/-- Catalog holding `wRelA` and `wRelB`. -/
def wStC4 : ServerState := ⟨[], [], [wRelA, wRelB], []⟩

/-- The latest-release info the catalog answers for `current_version = v2.0.0`. -/
def wInfoC4 : ReleaseInfo :=
  ⟨"siemcore-api", "v2.0.0", "v1.0.1", true, "stable",
   "/api/v1/releases/siemcore-api/v1.0.1/download", "ck-b", 9, "", 200⟩

/-- Catalog holding only `wRelB`, for the heartbeat witness. -/
def wStC5 : ServerState := ⟨[], [], [wRelB], []⟩

/-- Heartbeat from an unregistered instance reporting one product. -/
def wHbC5 : Heartbeat := ⟨"inst-1", [⟨"siemcore-api", "v1.0.0", "stable"⟩]⟩

/-- Release-upload request whose artifact is the single byte `a`. -/
def cexReqC6 : CreateReleaseRequest :=
  ⟨"siemcore", "v1.5.0", "stable", "", "", "siemcore-linux-amd64", 1, [0x61]⟩

/-- Agent config with one managed product, for the rollback run. -/
def cfgC8 : AgentConfig :=
  ⟨"siemcore", [⟨"siemcore-api", "siemcore-api", "/opt/siemcore/bin/siemcore-api"⟩]⟩

/-- Agent disk with a dotted-version backup, a binary and a version file. -/
def fsC8 : FS :=
  [("/opt/siemcore/updater/backups/siemcore-api.v1.5.0.bak", [1]),
   ("/opt/siemcore/bin/siemcore-api", [2]),
   ("/opt/siemcore/updater/versions/siemcore-api.version", strBytes "v2.0.0")]

/-- An unbound, active, unexpired license. -/
def cexLicC2 : License :=
  ⟨"lic-2", "SIEM-DDDD-0000-0000-0000", "c-1", "Acme", "siemcore", [], [], 0, 1000, "", true⟩

/-- State holding only `cexLicC2`. -/
def cexStC2 : ServerState := ⟨[cexLicC2], [], [], []⟩

/-- Activation request with an EMPTY hostname. -/
def cexReqC2 : LicenseActivationRequest := ⟨"SIEM-DDDD-0000-0000-0000", "", "m-1"⟩

/-- An unbound, active, unexpired license for the idempotence witness. -/
def wLicC2 : License :=
  ⟨"lic-1", "SIEM-AAAA-0000-0000-0000", "c-1", "Acme", "siemcore", [], [], 0, 1000, "", true⟩

/-- State holding only `wLicC2`. -/
def wStC2 : ServerState := ⟨[wLicC2], [], [], []⟩

/-- Activation request with a real hostname. -/
def wReqC2 : LicenseActivationRequest := ⟨"SIEM-AAAA-0000-0000-0000", "acme.corp.local", "m-1"⟩

/-- Agent config for the apply-update rollback witness. -/
def cfgC7 : AgentConfig :=
  ⟨"siemcore", [⟨"siemcore-api", "siemcore-api", "/opt/siemcore/bin/siemcore-api"⟩]⟩

/-- Agent disk holding the current binary and its version file. -/
def fsC7 : FS :=
  [("/opt/siemcore/bin/siemcore-api", [10, 11]),
   ("/opt/siemcore/updater/versions/siemcore-api.version", strBytes "v1.0.0")]

/-- Update offer from `v1.0.0` to `v2.0.0`. -/
def infoC7 : ReleaseInfo :=
  ⟨"siemcore-api", "v1.0.0", "v2.0.0", true, "stable",
   "/api/v1/releases/siemcore-api/v2.0.0/download", "ck", 2, "", 50⟩

/-! ## Helper lemmas -/

theorem assocGet_set_self [DecidableEq κ] (m : List (κ × α)) (k : κ) (a : α) :
    assocGet (assocSet m k a) k = some a := by
  induction m with
  | nil => simp [assocSet, assocGet]
  | cons kv m ih =>
    obtain ⟨k0, a0⟩ := kv
    by_cases h : k0 = k
    · simp [assocSet, assocGet, h]
    · simpa [assocSet, assocGet, h] using ih

theorem assocGet_set_ne [DecidableEq κ] (m : List (κ × α)) {k k' : κ} (a : α) (h : k' ≠ k) :
    assocGet (assocSet m k a) k' = assocGet m k' := by
  induction m with
  | nil => simp [assocSet, assocGet, Ne.symm h]
  | cons kv m ih =>
    obtain ⟨k0, a0⟩ := kv
    by_cases hk : k0 = k
    · subst hk
      simp [assocSet, assocGet, Ne.symm h]
    · by_cases hk' : k0 = k'
      · simp [assocSet, assocGet, hk, hk', h]
      · simpa [assocSet, assocGet, hk, hk'] using ih

theorem assocGet_del_ne [DecidableEq κ] (m : List (κ × α)) {k k' : κ} (h : k' ≠ k) :
    assocGet (assocDel m k) k' = assocGet m k' := by
  induction m with
  | nil => simp [assocDel, assocGet]
  | cons kv m ih =>
    obtain ⟨k0, a0⟩ := kv
    by_cases hk : k0 = k
    · subst hk
      simpa [assocDel, assocGet, Ne.symm h] using ih
    · by_cases hk' : k0 = k'
      · simp [assocDel, assocGet, hk, hk', h]
      · simpa [assocDel, assocGet, hk, hk'] using ih

theorem find?_map_pres {α : Type} (f : α → α) (p : α → Bool) (hp : ∀ a, p (f a) = p a)
    (l : List α) : (l.map f).find? p = (l.find? p).map f := by
  induction l with
  | nil => rfl
  | cons a l ih =>
    cases hpa : p a with
    | true => simp [List.find?_cons, hp a, hpa]
    | false => simpa [List.find?_cons, hp a, hpa] using ih

theorem find?_append_none {α : Type} (p : α → Bool) (l₁ l₂ : List α)
    (h : l₁.find? p = none) : (l₁ ++ l₂).find? p = l₂.find? p := by
  rw [List.find?_append, h]
  rfl

theorem countP_map_pres {α : Type} (f : α → α) (p : α → Bool) (hp : ∀ a, p (f a) = p a)
    (l : List α) : (l.map f).countP p = l.countP p := by
  induction l with
  | nil => rfl
  | cons a l ih => simp [List.countP_cons, hp a, ih]

theorem maxByReleasedAt_ne_none (a : Release) (l : List Release) :
    maxByReleasedAt (a :: l) ≠ none := by
  simp only [maxByReleasedAt]
  cases maxByReleasedAt l with
  | none => simp
  | some b =>
    by_cases hgt : b.releasedAt > a.releasedAt
    · simp [hgt]
    · simp [hgt]

theorem maxByReleasedAt_mem {l : List Release} {r : Release}
    (h : maxByReleasedAt l = some r) : r ∈ l := by
  induction l generalizing r with
  | nil => simp [maxByReleasedAt] at h
  | cons a l ih =>
    cases hm : maxByReleasedAt l with
    | none =>
      have h' : maxByReleasedAt (a :: l) = some a := by simp [maxByReleasedAt, hm]
      rw [h'] at h
      obtain rfl := Option.some.inj h
      exact List.mem_cons_self a l
    | some b =>
      by_cases hgt : b.releasedAt > a.releasedAt
      · have h' : maxByReleasedAt (a :: l) = some b := by simp [maxByReleasedAt, hm, hgt]
        rw [h'] at h
        obtain rfl := Option.some.inj h
        exact List.mem_cons_of_mem a (ih hm)
      · have h' : maxByReleasedAt (a :: l) = some a := by simp [maxByReleasedAt, hm, hgt]
        rw [h'] at h
        obtain rfl := Option.some.inj h
        exact List.mem_cons_self a l

theorem maxByReleasedAt_le {l : List Release} {r : Release}
    (h : maxByReleasedAt l = some r) : ∀ x ∈ l, x.releasedAt ≤ r.releasedAt := by
  induction l generalizing r with
  | nil => simp [maxByReleasedAt] at h
  | cons a l ih =>
    intro x hx
    cases hm : maxByReleasedAt l with
    | none =>
      have h' : maxByReleasedAt (a :: l) = some a := by simp [maxByReleasedAt, hm]
      rw [h'] at h
      obtain rfl := Option.some.inj h
      rcases List.mem_cons.mp hx with rfl | hxl
      · exact Nat.le_refl _
      · cases l with
        | nil => simp at hxl
        | cons hd tl => exact absurd hm (maxByReleasedAt_ne_none hd tl)
    | some b =>
      by_cases hgt : b.releasedAt > a.releasedAt
      · have h' : maxByReleasedAt (a :: l) = some b := by simp [maxByReleasedAt, hm, hgt]
        rw [h'] at h
        obtain rfl := Option.some.inj h
        rcases List.mem_cons.mp hx with rfl | hxl
        · exact Nat.le_of_lt hgt
        · exact ih hm x hxl
      · have h' : maxByReleasedAt (a :: l) = some a := by simp [maxByReleasedAt, hm, hgt]
        rw [h'] at h
        obtain rfl := Option.some.inj h
        rcases List.mem_cons.mp hx with rfl | hxl
        · exact Nat.le_refl _
        · exact Nat.le_trans (ih hm x hxl) (Nat.le_of_not_lt hgt)

theorem blobPut_blobs (st : ServerState) (p v f : String) (content : List Byte) :
    (blobPut st p v f content).blobs = assocSet st.blobs (p, v, f) content := rfl

theorem blobPut_releases (st : ServerState) (p v f : String) (content : List Byte) :
    (blobPut st p v f content).releases = st.releases := rfl

theorem bytesToStr_strBytes (s : String) : bytesToStr (strBytes s) = s := by
  obtain ⟨data⟩ := s
  simp only [bytesToStr, strBytes, List.map_map]
  congr 1
  rw [show Char.ofNat ∘ Char.toNat = id from funext Char.ofNat_toNat, List.map_id]

theorem getLatestByProduct_fields {st : ServerState} {a b : String} {rel : Release}
    (h : getLatestByProduct st a b = some rel) :
    rel ∈ st.releases ∧ rel.productName = a ∧ rel.channel = b := by
  have hm := maxByReleasedAt_mem h
  rw [List.mem_filter] at hm
  obtain ⟨hmem, hpred⟩ := hm
  rw [Bool.and_eq_true, beq_iff_eq, beq_iff_eq] at hpred
  exact ⟨hmem, hpred.1, hpred.2⟩

theorem getLatestByProduct_le {st : ServerState} {a b : String} {rel : Release}
    (h : getLatestByProduct st a b = some rel) :
    ∀ r ∈ st.releases, r.productName = a → r.channel = b → r.releasedAt ≤ rel.releasedAt := by
  intro r hr hrp hrc
  exact maxByReleasedAt_le h r
    (List.mem_filter.mpr ⟨hr, by rw [Bool.and_eq_true, beq_iff_eq, beq_iff_eq]; exact ⟨hrp, hrc⟩⟩)

theorem offerFor_updateHeartbeat (st : ServerState) (id : String) (hb : Heartbeat) (now : Nat)
    (p : ProductStatus) : offerFor (updateHeartbeat st id hb now) p = offerFor st p := rfl

theorem generateInstanceID_rand_irrelevant (l : License) (hostname : String) (r r' : String)
    (h : hostname ≠ "") : generateInstanceID l hostname r = generateInstanceID l hostname r' := by
  simp [generateInstanceID, h]

theorem licenseGetByKey_update (st : ServerState) (l : License) (key : String) :
    licenseGetByKey (licenseUpdate st l) key =
      (licenseGetByKey st key).map (fun x =>
        if x.id = l.id then
          { x with customerName := l.customerName, products := l.products,
                   features := l.features, expiresAt := l.expiresAt,
                   boundTo := l.boundTo, isActive := l.isActive }
        else x) :=
  find?_map_pres _ _ (fun a => by by_cases h : a.id = l.id <;> simp [h]) st.licenses

theorem instanceGetByInstanceID_update (st : ServerState) (inst : Instance) (iid : String) :
    instanceGetByInstanceID (instanceUpdate st inst) iid =
      (instanceGetByInstanceID st iid).map (fun x =>
        if x.id = inst.id then
          { x with hostname := inst.hostname, apiKeyHash := inst.apiKeyHash,
                   status := inst.status }
        else x) :=
  find?_map_pres _ _ (fun a => by by_cases h : a.id = inst.id <;> simp [h]) st.instances

theorem activateLicense_fresh_bind
    (st : ServerState) (req : LicenseActivationRequest) (now : Nat) (r k u : String)
    (license : License)
    (hfind : licenseGetByKey st req.licenseKey = some license)
    (hactive : license.isActive = true)
    (hexp : ¬ license.expiresAt < now)
    (hbindFail : ¬(license.boundTo ≠ "" ∧ license.boundTo ≠ req.machineId))
    (hIG : instanceGetByInstanceID st (generateInstanceID license req.hostname r) = none)
    (hc : license.boundTo = "" ∧ req.machineId ≠ "") :
    activateLicense st req now r k u =
      ({ success := true, error := "",
         license := some { license with boundTo := req.machineId },
         instanceInfo := some ⟨u, generateInstanceID license req.hostname r, k⟩,
         install := some (buildInstallManifest { license with boundTo := req.machineId }) },
       licenseUpdate
         (instanceCreate st
           ⟨u, generateInstanceID license req.hostname r, license.licenseType, req.hostname,
            license.id, hashAPIKey k, none, none, "online"⟩)
         { license with boundTo := req.machineId }) := by
  simp only [activateLicense, hfind]
  simp only [hactive, Bool.not_true, Bool.false_eq_true, if_false]
  rw [if_neg hexp, if_neg hbindFail]
  simp only [hIG]
  rw [if_pos hc]

theorem activateLicense_fresh_nobind
    (st : ServerState) (req : LicenseActivationRequest) (now : Nat) (r k u : String)
    (license : License)
    (hfind : licenseGetByKey st req.licenseKey = some license)
    (hactive : license.isActive = true)
    (hexp : ¬ license.expiresAt < now)
    (hbindFail : ¬(license.boundTo ≠ "" ∧ license.boundTo ≠ req.machineId))
    (hIG : instanceGetByInstanceID st (generateInstanceID license req.hostname r) = none)
    (hnc : ¬(license.boundTo = "" ∧ req.machineId ≠ "")) :
    activateLicense st req now r k u =
      ({ success := true, error := "", license := some license,
         instanceInfo := some ⟨u, generateInstanceID license req.hostname r, k⟩,
         install := some (buildInstallManifest license) },
       instanceCreate st
         ⟨u, generateInstanceID license req.hostname r, license.licenseType, req.hostname,
          license.id, hashAPIKey k, none, none, "online"⟩) := by
  simp only [activateLicense, hfind]
  simp only [hactive, Bool.not_true, Bool.false_eq_true, if_false]
  rw [if_neg hexp, if_neg hbindFail]
  simp only [hIG]
  rw [if_neg hnc]

theorem activateLicense_existing
    (st : ServerState) (req : LicenseActivationRequest) (now : Nat) (r k u : String)
    (license : License) (inst : Instance)
    (hfind : licenseGetByKey st req.licenseKey = some license)
    (hactive : license.isActive = true)
    (hexp : ¬ license.expiresAt < now)
    (hbindFail : ¬(license.boundTo ≠ "" ∧ license.boundTo ≠ req.machineId))
    (hnc : ¬(license.boundTo = "" ∧ req.machineId ≠ ""))
    (hIG : instanceGetByInstanceID st (generateInstanceID license req.hostname r) = some inst) :
    activateLicense st req now r k u =
      ({ success := true, error := "", license := some license,
         instanceInfo := some ⟨inst.id, inst.instanceId, k⟩,
         install := some (buildInstallManifest license) },
       instanceUpdate st
         { inst with hostname := req.hostname, apiKeyHash := hashAPIKey k,
                     status := "online" }) := by
  simp only [activateLicense, hfind]
  simp only [hactive, Bool.not_true, Bool.false_eq_true, if_false]
  rw [if_neg hexp, if_neg hbindFail]
  simp only [hIG]
  rw [if_neg hnc]

/-! ## Claim theorems -/

/-- C1: an activation request against a license whose `bound_to` is non-empty
and differs from the requested machine id is refused with exactly
`license is bound to a different machine`, and the whole server state
(instances and licenses included) is returned unchanged. -/
theorem activate_bound_refusal (st : ServerState) (req : LicenseActivationRequest)
    (now : Nat) (randHex apiKey newUuid : String) (license : License)
    (hfind : licenseGetByKey st req.licenseKey = some license)
    (hactive : license.isActive = true)
    (hexp : ¬ license.expiresAt < now)
    (hb1 : license.boundTo ≠ "")
    (hb2 : license.boundTo ≠ req.machineId) :
    activateLicense st req now randHex apiKey newUuid =
      (errResp "license is bound to a different machine", st) := by
  unfold activateLicense
  rw [hfind]
  simp [hactive, hexp, hb1, hb2]

/-- Witness for C1 at a concrete bound license and a different machine id. -/
theorem activate_bound_refusal_witness :
    activateLicense wStC1 ⟨"SIEM-BBBB-0000-0000-0000", "host.example", "m-2"⟩ 10 "r" "k" "u" =
      (errResp "license is bound to a different machine", wStC1) :=
  activate_bound_refusal wStC1 ⟨"SIEM-BBBB-0000-0000-0000", "host.example", "m-2"⟩ 10 "r" "k" "u"
    wLicC1 (by decide) (by decide) (by decide) (by decide) (by decide)

set_option maxRecDepth 100000 in
/-- C2 counterexample: with an EMPTY hostname, the derived instance id embeds
the fresh 4-byte random hex, so activating the same license twice with the
same (empty) hostname and machine id creates TWO instance rows with different
derived ids — the claim <same instance id, exactly one row> fails as stated. -/
theorem activate_empty_hostname_two_rows_cex :
    (activateLicense cexStC2 cexReqC2 10 "aaaaaaaa" "k1" "uuid-1").1.success = true ∧
    (activateLicense (activateLicense cexStC2 cexReqC2 10 "aaaaaaaa" "k1" "uuid-1").2
        cexReqC2 10 "bbbbbbbb" "k2" "uuid-2").1.success = true ∧
    (activateLicense (activateLicense cexStC2 cexReqC2 10 "aaaaaaaa" "k1" "uuid-1").2
        cexReqC2 10 "bbbbbbbb" "k2" "uuid-2").2.instances.length = 2 ∧
    (activateLicense cexStC2 cexReqC2 10 "aaaaaaaa" "k1" "uuid-1").1.instanceInfo.map
        InstanceInfo.name = some "siemcore-aaaaaaaa" ∧
    (activateLicense (activateLicense cexStC2 cexReqC2 10 "aaaaaaaa" "k1" "uuid-1").2
        cexReqC2 10 "bbbbbbbb" "k2" "uuid-2").1.instanceInfo.map
        InstanceInfo.name = some "siemcore-bbbbbbbb" := by
  refine ⟨by decide, by decide, by decide, by decide, by decide⟩

/-- C2 (amended to non-empty hostnames): two successive activations of the
same license with the same non-empty hostname and machine id derive the same
instance id, add exactly one instance row overall, and the second activation
updates that row in place, overwriting its api key hash with the hash of the
SECOND generated key (so the first key no longer matches). -/
theorem activate_idempotent_nonempty_hostname
    (st : ServerState) (req : LicenseActivationRequest) (now : Nat)
    (r1 r2 k1 k2 u1 u2 : String) (license : License)
    (hhost : req.hostname ≠ "")
    (hfind : licenseGetByKey st req.licenseKey = some license)
    (hactive : license.isActive = true)
    (hexp : ¬ license.expiresAt < now)
    (hbind : license.boundTo = "" ∨ license.boundTo = req.machineId)
    (hfresh : st.instances.find?
        (fun i => i.instanceId == generateInstanceID license req.hostname r1) = none) :
    (activateLicense st req now r1 k1 u1).1.success = true ∧
    (activateLicense (activateLicense st req now r1 k1 u1).2 req now r2 k2 u2).1.success
      = true ∧
    (activateLicense st req now r1 k1 u1).1.instanceInfo.map InstanceInfo.name =
      some (generateInstanceID license req.hostname r1) ∧
    (activateLicense (activateLicense st req now r1 k1 u1).2 req now r2 k2 u2).1.instanceInfo.map
      InstanceInfo.name = some (generateInstanceID license req.hostname r1) ∧
    (activateLicense (activateLicense st req now r1 k1 u1).2 req now r2 k2 u2).2.instances.length
      = st.instances.length + 1 ∧
    (activateLicense (activateLicense st req now r1 k1 u1).2 req now r2 k2 u2).2.instances.countP
      (fun i => i.instanceId == generateInstanceID license req.hostname r1) = 1 ∧
    (activateLicense (activateLicense st req now r1 k1 u1).2 req now r2 k2 u2).2.instances.find?
      (fun i => i.instanceId == generateInstanceID license req.hostname r1) =
      some ⟨u1, generateInstanceID license req.hostname r1, license.licenseType, req.hostname,
            license.id, hashAPIKey k2, none, none, "online"⟩ := by
  have hbindFail : ¬(license.boundTo ≠ "" ∧ license.boundTo ≠ req.machineId) := by
    rcases hbind with h | h
    · exact fun hcc => hcc.1 h
    · exact fun hcc => hcc.2 h
  have hpres : ∀ x : Instance,
      ((if x.id = u1 then
          { x with hostname := req.hostname, apiKeyHash := hashAPIKey k2, status := "online" }
        else x).instanceId == generateInstanceID license req.hostname r1)
      = (x.instanceId == generateInstanceID license req.hostname r1) := by
    intro x
    by_cases h : x.id = u1 <;> simp [h]
  have hcount0 : st.instances.countP
      (fun i => i.instanceId == generateInstanceID license req.hostname r1) = 0 :=
    List.countP_eq_zero.mpr (fun a ha => by
      have := List.find?_eq_none.mp hfresh a ha
      simpa using this)
  by_cases hc : license.boundTo = "" ∧ req.machineId ≠ ""
  · have eA := activateLicense_fresh_bind st req now r1 k1 u1 license hfind hactive hexp
      hbindFail hfresh hc
    have hfindB : licenseGetByKey (activateLicense st req now r1 k1 u1).2 req.licenseKey
        = some { license with boundTo := req.machineId } := by
      rw [eA]
      rw [licenseGetByKey_update]
      have h2 : licenseGetByKey
          (instanceCreate st
            ⟨u1, generateInstanceID license req.hostname r1, license.licenseType, req.hostname,
             license.id, hashAPIKey k1, none, none, "online"⟩) req.licenseKey
          = some license := hfind
      rw [h2]
      simp
    have hgen2 : generateInstanceID { license with boundTo := req.machineId } req.hostname r2
        = generateInstanceID license req.hostname r1 := by
      simp [generateInstanceID, hhost]
    have hIGB : instanceGetByInstanceID (activateLicense st req now r1 k1 u1).2
        (generateInstanceID { license with boundTo := req.machineId } req.hostname r2)
        = some ⟨u1, generateInstanceID license req.hostname r1, license.licenseType,
                req.hostname, license.id, hashAPIKey k1, none, none, "online"⟩ := by
      rw [hgen2, eA]
      show (st.instances ++
          [(⟨u1, generateInstanceID license req.hostname r1, license.licenseType, req.hostname,
            license.id, hashAPIKey k1, none, none, "online"⟩ : Instance)]).find?
          (fun i : Instance => i.instanceId == generateInstanceID license req.hostname r1) = _
      rw [find?_append_none _ _ _ hfresh]
      simp [List.find?]
    have eB := activateLicense_existing (activateLicense st req now r1 k1 u1).2 req now r2 k2 u2
      { license with boundTo := req.machineId }
      ⟨u1, generateInstanceID license req.hostname r1, license.licenseType, req.hostname,
       license.id, hashAPIKey k1, none, none, "online"⟩
      hfindB hactive hexp (fun hcc => hcc.2 rfl) (fun hcc => hc.2 hcc.1) hIGB
    have hInstB : (activateLicense (activateLicense st req now r1 k1 u1).2 req now
        r2 k2 u2).2.instances =
        (st.instances ++
          [(⟨u1, generateInstanceID license req.hostname r1, license.licenseType, req.hostname,
            license.id, hashAPIKey k1, none, none, "online"⟩ : Instance)]).map
          (fun x : Instance => if x.id = u1 then
              { x with hostname := req.hostname, apiKeyHash := hashAPIKey k2,
                       status := "online" }
            else x) := by
      rw [eB, eA]
      rfl
    refine ⟨by rw [eA], by rw [eB], by rw [eA]; rfl, by rw [eB]; rfl, ?_, ?_, ?_⟩
    · rw [hInstB]
      simp
    · rw [hInstB, countP_map_pres _ _ hpres, List.countP_append, hcount0]
      simp [List.countP_cons]
    · rw [hInstB, find?_map_pres _ _ hpres, find?_append_none _ _ _ hfresh]
      simp [List.find?]
  · have eA := activateLicense_fresh_nobind st req now r1 k1 u1 license hfind hactive hexp
      hbindFail hfresh hc
    have hfindB : licenseGetByKey (activateLicense st req now r1 k1 u1).2 req.licenseKey
        = some license := by
      rw [eA]
      exact hfind
    have hgen2 : generateInstanceID license req.hostname r2
        = generateInstanceID license req.hostname r1 :=
      generateInstanceID_rand_irrelevant license req.hostname r2 r1 hhost
    have hIGB : instanceGetByInstanceID (activateLicense st req now r1 k1 u1).2
        (generateInstanceID license req.hostname r2)
        = some ⟨u1, generateInstanceID license req.hostname r1, license.licenseType,
                req.hostname, license.id, hashAPIKey k1, none, none, "online"⟩ := by
      rw [hgen2, eA]
      show (st.instances ++
          [(⟨u1, generateInstanceID license req.hostname r1, license.licenseType, req.hostname,
            license.id, hashAPIKey k1, none, none, "online"⟩ : Instance)]).find?
          (fun i : Instance => i.instanceId == generateInstanceID license req.hostname r1) = _
      rw [find?_append_none _ _ _ hfresh]
      simp [List.find?]
    have eB := activateLicense_existing (activateLicense st req now r1 k1 u1).2 req now r2 k2 u2
      license
      ⟨u1, generateInstanceID license req.hostname r1, license.licenseType, req.hostname,
       license.id, hashAPIKey k1, none, none, "online"⟩
      hfindB hactive hexp hbindFail hc hIGB
    have hInstB : (activateLicense (activateLicense st req now r1 k1 u1).2 req now
        r2 k2 u2).2.instances =
        (st.instances ++
          [(⟨u1, generateInstanceID license req.hostname r1, license.licenseType, req.hostname,
            license.id, hashAPIKey k1, none, none, "online"⟩ : Instance)]).map
          (fun x : Instance => if x.id = u1 then
              { x with hostname := req.hostname, apiKeyHash := hashAPIKey k2,
                       status := "online" }
            else x) := by
      rw [eB, eA]
      rfl
    refine ⟨by rw [eA], by rw [eB], by rw [eA]; rfl, by rw [eB]; rfl, ?_, ?_, ?_⟩
    · rw [hInstB]
      simp
    · rw [hInstB, countP_map_pres _ _ hpres, List.countP_append, hcount0]
      simp [List.countP_cons]
    · rw [hInstB, find?_map_pres _ _ hpres, find?_append_none _ _ _ hfresh]
      simp [List.find?]

set_option maxRecDepth 100000 in
/-- Witness for the amended C2 at a concrete fresh license and hostname
`acme.corp.local`. -/
theorem activate_idempotent_witness :
    (activateLicense wStC2 wReqC2 10 "r1" "k1" "uuid-1").1.success = true ∧
    (activateLicense (activateLicense wStC2 wReqC2 10 "r1" "k1" "uuid-1").2
        wReqC2 10 "r2" "k2" "uuid-2").1.success = true ∧
    (activateLicense wStC2 wReqC2 10 "r1" "k1" "uuid-1").1.instanceInfo.map
        InstanceInfo.name = some "siemcore-acme-corp-local" ∧
    (activateLicense (activateLicense wStC2 wReqC2 10 "r1" "k1" "uuid-1").2
        wReqC2 10 "r2" "k2" "uuid-2").1.instanceInfo.map
        InstanceInfo.name = some "siemcore-acme-corp-local" ∧
    (activateLicense (activateLicense wStC2 wReqC2 10 "r1" "k1" "uuid-1").2
        wReqC2 10 "r2" "k2" "uuid-2").2.instances.length = wStC2.instances.length + 1 ∧
    (activateLicense (activateLicense wStC2 wReqC2 10 "r1" "k1" "uuid-1").2
        wReqC2 10 "r2" "k2" "uuid-2").2.instances.countP
        (fun i => i.instanceId == "siemcore-acme-corp-local") = 1 ∧
    (activateLicense (activateLicense wStC2 wReqC2 10 "r1" "k1" "uuid-1").2
        wReqC2 10 "r2" "k2" "uuid-2").2.instances.find?
        (fun i => i.instanceId == "siemcore-acme-corp-local") =
      some ⟨"uuid-1", "siemcore-acme-corp-local", "siemcore", "acme.corp.local",
            "lic-1", hashAPIKey "k2", none, none, "online"⟩ :=
  activate_idempotent_nonempty_hostname wStC2 wReqC2 10 "r1" "r2" "k1" "k2" "uuid-1" "uuid-2"
    wLicC2 (by decide) (by decide) (by decide) (by decide) (by decide) (by decide)

/-- C3 counterexample: the validate endpoint answers `valid = true` for a
license that is active but EXPIRED (tick 10 is past expiry tick 5), while the
§3 usability invariant the claim quotes is false there; expiry and binding
are never checked by the handler. -/
theorem validate_ignores_expiry_cex :
    licenseGetByKey cexStC3 "SIEM-CCCC-0000-0000-0000" = some cexLicC3 ∧
    cexLicC3.expiresAt < 10 ∧
    specLicenseUsable cexLicC3 10 "" = false ∧
    (handleLicenseValidate cexStC3 "SIEM-CCCC-0000-0000-0000").1.valid = true := by
  decide

/-- C3 (amended): the validate endpoint is read-only and reports
`valid = true` iff the license row exists AND `is_active` holds — expiry and
binding do not enter the answer. -/
theorem validate_amended :
    ∀ (st : ServerState) (key : String),
      (handleLicenseValidate st key).2 = st ∧
      ((handleLicenseValidate st key).1.valid = true ↔
        ∃ l, licenseGetByKey st key = some l ∧ l.isActive = true) := by
  intro st key
  unfold handleLicenseValidate validateLicense
  cases h : licenseGetByKey st key with
  | none => simp
  | some l => simp

/-- C4: when the latest-release query answers, the answered release is one of
the rows of the requested product and channel with MAXIMAL `released_at` (not
maximal version string), and `update_available` is exactly
`current_version == "" || current_version != latest_version` — so a reported
version newer than the latest release still yields `update_available = true`. -/
theorem latest_by_released_at
    (st : ServerState) (product channel currentVersion : String) (info : ReleaseInfo)
    (h : getLatestRelease st product channel currentVersion = some info) :
    ∃ rel, rel ∈ st.releases ∧ rel.productName = product ∧ rel.channel = channel ∧
      getLatestByProduct st product channel = some rel ∧
      info.latestVersion = rel.version ∧
      (∀ r ∈ st.releases, r.productName = product → r.channel = channel →
        r.releasedAt ≤ rel.releasedAt) ∧
      info.updateAvailable = (currentVersion == "" || currentVersion != rel.version) := by
  unfold getLatestRelease at h
  cases hl : getLatestByProduct st product channel with
  | none => rw [hl] at h; cases h
  | some rel =>
    rw [hl] at h
    obtain rfl := Option.some.inj h
    obtain ⟨hmem, hp, hc⟩ := getLatestByProduct_fields hl
    exact ⟨rel, hmem, hp, hc, rfl, rfl, getLatestByProduct_le hl, rfl⟩

/-- Witness for C4: the newer-by-date release v1.0.1 beats the
higher-version-string release v2.0.0, and a client already on v2.0.0 is still
told an update is available. -/
theorem latest_by_released_at_witness :
    getLatestRelease wStC4 "siemcore-api" "stable" "v2.0.0" = some wInfoC4 ∧
    (∃ rel, rel ∈ wStC4.releases ∧ rel.productName = "siemcore-api" ∧ rel.channel = "stable" ∧
      getLatestByProduct wStC4 "siemcore-api" "stable" = some rel ∧
      wInfoC4.latestVersion = rel.version ∧
      (∀ r ∈ wStC4.releases, r.productName = "siemcore-api" → r.channel = "stable" →
        r.releasedAt ≤ rel.releasedAt) ∧
      wInfoC4.updateAvailable = (("v2.0.0" : String) == "" || ("v2.0.0" : String) != rel.version)) :=
  ⟨by decide, latest_by_released_at wStC4 "siemcore-api" "stable" "v2.0.0" wInfoC4 (by decide)⟩

/-- C5: the heartbeat endpoint rejects an empty `instance_id` with 400 and no
state change; for a non-empty id it answers 200, skips the registry update
silently when the instance is unknown, and (on catalogs whose release rows
carry non-empty versions, as the upload handler enforces) its `updates` list
contains an entry for a reported product iff a latest release exists for that
product and channel whose version differs from the reported one. -/
theorem heartbeat_updates_iff (st : ServerState) (hb : Heartbeat) (now : Nat) :
    (hb.instanceId = "" → handleHeartbeat st hb now = ⟨400, [], st⟩) ∧
    (hb.instanceId ≠ "" →
      (handleHeartbeat st hb now).status = 200 ∧
      ((∀ i ∈ st.instances, i.instanceId ≠ hb.instanceId) →
        (handleHeartbeat st hb now).state.instances = st.instances) ∧
      ((∀ r ∈ st.releases, r.version ≠ "") →
        ∀ p ∈ hb.products,
          ((∃ info, info ∈ (handleHeartbeat st hb now).updates ∧
              info.product = p.name ∧ info.channel = p.channel ∧
              info.currentVersion = p.version) ↔
            (∃ rel, getLatestByProduct st p.name p.channel = some rel ∧
              rel.version ≠ p.version)))) := by
  constructor
  · intro h
    simp [handleHeartbeat, h]
  · intro h
    have hH : handleHeartbeat st hb now =
        ⟨200, hb.products.filterMap (offerFor (updateHeartbeat st hb.instanceId hb now)),
         updateHeartbeat st hb.instanceId hb now⟩ := by
      simp [handleHeartbeat, h]
    rw [hH]
    refine ⟨rfl, ?_, ?_⟩
    · intro huk
      show st.instances.map _ = st.instances
      exact (List.map_congr_left (fun i hi => if_neg (huk i hi))).trans (List.map_id' _)
    · intro hver p hp
      constructor
      · rintro ⟨info, hinfo, hprod, hchan, hcur⟩
        rw [List.mem_filterMap] at hinfo
        obtain ⟨q, hq, hoq⟩ := hinfo
        rw [offerFor_updateHeartbeat] at hoq
        unfold offerFor at hoq
        cases hgl : getLatestRelease st q.name q.channel q.version with
        | none => rw [hgl] at hoq; exact absurd hoq (by simp)
        | some iq =>
          rw [hgl] at hoq
          dsimp only at hoq
          by_cases hua : iq.updateAvailable = true
          · rw [if_pos hua] at hoq
            obtain rfl := Option.some.inj hoq
            unfold getLatestRelease at hgl
            cases hgb : getLatestByProduct st q.name q.channel with
            | none => rw [hgb] at hgl; cases hgl
            | some relq =>
              rw [hgb] at hgl
              obtain rfl := Option.some.inj hgl
              obtain ⟨hqmem, hqp, hqc⟩ := getLatestByProduct_fields hgb
              have hname : q.name = p.name := by rw [← hprod]; exact hqp.symm
              have hchan2 : q.channel = p.channel := by rw [← hchan]; exact hqc.symm
              have hcur2 : q.version = p.version := hcur
              refine ⟨relq, by rw [← hname, ← hchan2]; exact hgb, ?_⟩
              have hua' : q.version = "" ∨ q.version ≠ relq.version := by
                simpa using hua
              rcases hua' with hemp | hbne
              · rw [← hcur2, hemp]
                exact fun hh => hver relq hqmem hh
              · rw [← hcur2]
                exact Ne.symm hbne
          · rw [if_neg hua] at hoq
            cases hoq
      · rintro ⟨rel, hgb, hne⟩
        obtain ⟨hmem, hpn, hcn⟩ := getLatestByProduct_fields hgb
        have hoff : offerFor st p = some
            { product := rel.productName, currentVersion := p.version,
              latestVersion := rel.version,
              updateAvailable := p.version == "" || p.version != rel.version,
              channel := rel.channel,
              downloadURL := "/api/v1/releases/" ++ rel.productName ++ "/" ++
                             rel.version ++ "/download",
              checksum := rel.checksum, size := rel.artifactSize,
              releaseNotes := rel.releaseNotes, releasedAt := rel.releasedAt } := by
          unfold offerFor getLatestRelease
          rw [hgb]
          have hpr : p.version ≠ rel.version := Ne.symm hne
          have hua : (p.version == "" || p.version != rel.version) = true := by simp [hpr]
          simp [hua]
        refine ⟨{ product := rel.productName, currentVersion := p.version,
                  latestVersion := rel.version,
                  updateAvailable := p.version == "" || p.version != rel.version,
                  channel := rel.channel,
                  downloadURL := "/api/v1/releases/" ++ rel.productName ++ "/" ++
                                 rel.version ++ "/download",
                  checksum := rel.checksum, size := rel.artifactSize,
                  releaseNotes := rel.releaseNotes, releasedAt := rel.releasedAt },
                List.mem_filterMap.mpr ⟨p, hp, ?_⟩, hpn, hcn, rfl⟩
        rw [offerFor_updateHeartbeat]
        exact hoff

/-- Witness for C5: an unknown instance still gets 200 and an offer when the
catalog has a newer release; an empty instance id gets 400. -/
theorem heartbeat_updates_iff_witness :
    handleHeartbeat wStC5 ⟨"", []⟩ 5 = ⟨400, [], wStC5⟩ ∧
    (handleHeartbeat wStC5 wHbC5 5).status = 200 ∧
    (handleHeartbeat wStC5 wHbC5 5).state.instances = wStC5.instances ∧
    ((∃ info, info ∈ (handleHeartbeat wStC5 wHbC5 5).updates ∧
        info.product = "siemcore-api" ∧ info.channel = "stable" ∧
        info.currentVersion = "v1.0.0") ↔
      (∃ rel, getLatestByProduct wStC5 "siemcore-api" "stable" = some rel ∧
        rel.version ≠ "v1.0.0")) :=
  ⟨(heartbeat_updates_iff wStC5 ⟨"", []⟩ 5).1 rfl,
   ((heartbeat_updates_iff wStC5 wHbC5 5).2 (by decide)).1,
   ((heartbeat_updates_iff wStC5 wHbC5 5).2 (by decide)).2.1 (by decide),
   ((heartbeat_updates_iff wStC5 wHbC5 5).2 (by decide)).2.2 (by decide)
     ⟨"siemcore-api", "v1.0.0", "stable"⟩ (by decide)⟩

set_option maxRecDepth 100000 in
/-- C6 counterexample: after a release upload (checksum computed over byte
`a`), the admin binary-upload endpoint overwrites the same artifact with byte
`b` without recomputing anything, and the stored artifact no longer hashes to
the release checksum — the <preserved by every subsequent operation> part of
the claim fails. -/
theorem upload_binary_breaks_checksum_cex :
    checksumOk (createRelease stEmpty cexReqC6 "rid-1" 100).2 = true ∧
    checksumOk (handleUploadBinary (createRelease stEmpty cexReqC6 "rid-1" 100).2
        "siemcore" "v1.5.0" "siemcore-linux-amd64" [0x62]) = false := by
  constructor
  · decide
  · decide

/-- C6 (amended): the checksum invariant holds after upload and is preserved
by further release uploads — `CreateRelease` hashes the stream it stores and
the unique `(product, version)` constraint keeps rows from aliasing each
other — but it is NOT preserved by the admin binary-upload endpoint. -/
theorem create_release_checksum (st : ServerState) (req : CreateReleaseRequest)
    (newUuid : String) (now : Nat)
    (hok : checksumOk st = true)
    (hsome : (createRelease st req newUuid now).1.isSome = true) :
    checksumOk (createRelease st req newUuid now).2 = true := by
  unfold createRelease at hsome ⊢
  by_cases hdup : st.releases.any
      (fun r => r.productName == req.productName && r.version == req.version) = true
  · simp [hdup] at hsome
  · rw [Bool.not_eq_true] at hdup
    rw [hdup] at hsome ⊢
    simp only [Bool.false_eq_true, if_false] at hsome ⊢
    unfold checksumOk at hok ⊢
    simp only [blobPut_blobs, blobPut_releases, blobGet] at hok ⊢
    rw [List.all_eq_true] at hok ⊢
    intro rel hrel
    rcases List.mem_append.mp hrel with hold | hnew
    · by_cases hkey : (rel.productName, rel.version, rel.artifactPath) =
          (req.productName, req.version, req.filename)
      · exfalso
        rw [List.any_eq_false] at hdup
        refine hdup rel hold ?_
        rw [Bool.and_eq_true, beq_iff_eq, beq_iff_eq]
        exact ⟨congrArg (fun t => t.1) hkey, congrArg (fun t => t.2.1) hkey⟩
      · rw [assocGet_set_ne _ _ hkey]
        exact hok rel hold
    · rw [List.mem_singleton] at hnew
      subst hnew
      simp only
      rw [assocGet_set_self]
      simp

set_option maxRecDepth 100000 in
/-- Witness for the amended C6: uploading one release into an empty catalog
leaves the checksum invariant intact. -/
theorem create_release_checksum_witness :
    checksumOk (createRelease stEmpty cexReqC6 "rid-1" 100).2 = true :=
  create_release_checksum stEmpty cexReqC6 "rid-1" 100 (by decide) (by decide)

/-- C7: when the first service start after the binary swap fails, the same
apply call copies the backup of the prior version back over the target
binary, issues a second start, returns a failure, and leaves the version file
holding the prior version. -/
theorem apply_update_rollback
    (fs0 : FS) (cfg : AgentConfig) (productName : String) (info : ReleaseInfo)
    (newBytes oldBin : List Byte) (pc : ProductConfig) (prev : String)
    (hpc : cfg.products.find? (fun p => p.name == productName) = some pc)
    (hsvc : pc.service ≠ "")
    (hver : assocGet fs0 (versionFilePath cfg productName) = some (strBytes prev))
    (hprev : prev ≠ "")
    (htrim : trimSpace prev = prev)
    (hbin : assocGet fs0 pc.binary = some oldBin)
    (hne1 : pc.binary ≠ tempPath cfg productName info.latestVersion)
    (hne2 : pc.binary ≠ backupPath cfg productName prev)
    (hne3 : pc.binary ≠ versionFilePath cfg productName)
    (hne4 : tempPath cfg productName info.latestVersion ≠ backupPath cfg productName prev)
    (hne5 : tempPath cfg productName info.latestVersion ≠ versionFilePath cfg productName)
    (hne6 : backupPath cfg productName prev ≠ versionFilePath cfg productName) :
    (applyUpdate fs0 cfg productName info (some newBytes) false).result =
        Except.error "failed to start service after update" ∧
    assocGet (applyUpdate fs0 cfg productName info (some newBytes) false).fs pc.binary =
        some oldBin ∧
    assocGet (applyUpdate fs0 cfg productName info (some newBytes) false).fs
        (versionFilePath cfg productName) = some (strBytes prev) ∧
    (applyUpdate fs0 cfg productName info (some newBytes) false).cmds =
      [["systemctl", "stop", pc.service], ["systemctl", "start", pc.service],
       ["systemctl", "start", pc.service]] := by
  have hcv : getCurrentVersion
      (assocSet fs0 (tempPath cfg productName info.latestVersion) newBytes) cfg productName
      = prev := by
    unfold getCurrentVersion
    rw [assocGet_set_ne _ _ (Ne.symm hne5), hver]
    dsimp only
    rw [bytesToStr_strBytes, htrim]
  have e : applyUpdate fs0 cfg productName info (some newBytes) false =
      ⟨Except.error "failed to start service after update",
       assocSet (assocSet (assocDel
           (assocSet (assocSet fs0 (tempPath cfg productName info.latestVersion) newBytes)
             (backupPath cfg productName prev) oldBin)
           (tempPath cfg productName info.latestVersion)) pc.binary newBytes) pc.binary oldBin,
       [["systemctl", "stop", pc.service], ["systemctl", "start", pc.service],
        ["systemctl", "start", pc.service]]⟩ := by
    unfold applyUpdate
    rw [hpc]
    dsimp only
    rw [hcv]
    rw [if_pos hprev]
    rw [assocGet_set_ne _ _ hne1, hbin]
    dsimp only [copyFile]
    rw [assocGet_set_ne _ _ hne1, hbin]
    dsimp only [renameFile]
    rw [assocGet_set_ne _ _ hne4, assocGet_set_self]
    dsimp only
    rw [if_pos ⟨hsvc, rfl⟩]
    rw [assocGet_set_ne _ _ (Ne.symm hne2), assocGet_del_ne _ (Ne.symm hne4), assocGet_set_self]
    dsimp only
    rw [if_pos hsvc]
    rfl
  rw [e]
  refine ⟨rfl, ?_, ?_, rfl⟩
  · rw [assocGet_set_self]
  · rw [assocGet_set_ne _ _ (Ne.symm hne3), assocGet_set_ne _ _ (Ne.symm hne3),
        assocGet_del_ne _ (Ne.symm hne5), assocGet_set_ne _ _ (Ne.symm hne6),
        assocGet_set_ne _ _ (Ne.symm hne5), hver]

/-- Witness for C7 on a concrete host: the v1 binary bytes come back, the
version file still says v1.0.0, and the log shows stop, start, start. -/
theorem apply_update_rollback_witness :
    (applyUpdate fsC7 cfgC7 "siemcore-api" infoC7 (some [99]) false).result =
        Except.error "failed to start service after update" ∧
    assocGet (applyUpdate fsC7 cfgC7 "siemcore-api" infoC7 (some [99]) false).fs
        "/opt/siemcore/bin/siemcore-api" = some [10, 11] ∧
    assocGet (applyUpdate fsC7 cfgC7 "siemcore-api" infoC7 (some [99]) false).fs
        (versionFilePath cfgC7 "siemcore-api") = some (strBytes "v1.0.0") ∧
    (applyUpdate fsC7 cfgC7 "siemcore-api" infoC7 (some [99]) false).cmds =
      [["systemctl", "stop", "siemcore-api"], ["systemctl", "start", "siemcore-api"],
       ["systemctl", "start", "siemcore-api"]] :=
  apply_update_rollback fsC7 cfgC7 "siemcore-api" infoC7 [99] [10, 11]
    ⟨"siemcore-api", "siemcore-api", "/opt/siemcore/bin/siemcore-api"⟩ "v1.0.0"
    (by decide) (by decide) (by decide) (by decide) (by decide) (by decide)
    (by decide) (by decide) (by decide) (by decide) (by decide) (by decide)

/-- C8: evaluating the rollback command on a backup named
`siemcore-api.v1.5.0.bak` shows the code extracting only `v1` — the text
before the SECOND dot — as the version: it compares by that truncated segment
and writes `v1`, not the full version segment `v1.5.0`, to the version file. -/
theorem rollback_truncates_version :
    selectBackup "siemcore-api" ["siemcore-api.v1.5.0.bak"] =
      some ("siemcore-api.v1.5.0.bak", "v1") ∧
    (runRollback fsC8 cfgC8 "siemcore-api" true).result = Except.ok () ∧
    assocGet (runRollback fsC8 cfgC8 "siemcore-api" true).fs
        (versionFilePath cfgC8 "siemcore-api") = some (strBytes "v1") ∧
    assocGet (runRollback fsC8 cfgC8 "siemcore-api" true).fs
        "/opt/siemcore/bin/siemcore-api" = some [1] ∧
    ("v1" : String) ≠ "v1.5.0" := by
  decide

/-- C9 counterexample: a mid-stream failure during Save leaves the delivered
prefix visible at the final path — the reader observes neither the previous
content nor nothing, violating the claim as stated. -/
theorem save_truncated_cex :
    localSave [(("siemcore", "v1.5.0", "siemcore-linux-amd64"), [1, 2, 3])]
        "siemcore" "v1.5.0" "siemcore-linux-amd64" [9] false =
      (Except.error "failed to write file",
        [(("siemcore", "v1.5.0", "siemcore-linux-amd64"), [9])]) ∧
    ([9] : List Byte) ≠ [1, 2, 3] := by
  decide

/-- C9 (amended): `LocalStorage.Save` writes straight to the final path
(`os.Create` + `io.Copy`, no temp-and-rename), so a failed Save returns an
error yet leaves exactly the delivered bytes visible at the key, the previous
content being lost. -/
theorem save_truncated_amended (bs : List (BlobKey × List Byte))
    (product version filename : String) (delivered : List Byte) :
    (localSave bs product version filename delivered false).1 =
        Except.error "failed to write file" ∧
    assocGet (localSave bs product version filename delivered false).2
        (product, version, filename) = some delivered := by
  refine ⟨rfl, ?_⟩
  simp [localSave]
  exact assocGet_set_self bs _ delivered

/-- C10 counterexample: the multipart release-upload route carries no
adminAuth middleware at all, so even with a configured admin key a request
with a wrong key reaches the handler instead of being rejected with 401 —
the claim wrongly lists release upload among the admin-gated routes. -/
theorem admin_gate_cex :
    gated Route.releaseUpload = false ∧
    dispatch "secret-admin-key" "wrong-key" "" Route.releaseUpload = AuthOutcome.handled := by
  decide

/-- C10 (amended): with an empty configured key every request passes the
middleware unchecked; with a configured key, the routes actually wrapped in
adminAuth — binary upload, instance delete and the license write routes, but
NOT the multipart release upload — reject any request whose header key (or
query key, when the header is empty) differs from the configured key with
401. -/
theorem admin_gate_amended :
    (∀ (hdr qry : String) (rt : Route), dispatch "" hdr qry rt = AuthOutcome.handled) ∧
    (∀ (ck hdr qry : String) (rt : Route), ck ≠ "" → gated rt = true →
      (if hdr = "" then qry else hdr) ≠ ck → dispatch ck hdr qry rt = AuthOutcome.unauthorized) ∧
    gated Route.binaryUpload = true ∧ gated Route.instanceDelete = true ∧
    gated Route.licenseCreate = true ∧ gated Route.licenseUpdateAdmin = true ∧
    gated Route.licenseDeleteAdmin = true ∧ gated Route.releaseUpload = false := by
  refine ⟨?_, ?_, rfl, rfl, rfl, rfl, rfl, rfl⟩
  · intro hdr qry rt
    simp [dispatch, adminAuth]
  · intro ck hdr qry rt hck hg hne
    simp [dispatch, hg, adminAuth, hck, hne]

/-- Witness for the amended C10: a wrong key on the gated binary-upload route
is rejected, and an unconfigured key lets a license-create request through. -/
theorem admin_gate_amended_witness :
    dispatch "secret-admin-key" "bad" "" Route.binaryUpload = AuthOutcome.unauthorized ∧
    dispatch "" "" "" Route.licenseCreate = AuthOutcome.handled :=
  ⟨admin_gate_amended.2.1 "secret-admin-key" "bad" "" Route.binaryUpload
      (by decide) (by decide) (by decide),
   admin_gate_amended.1 "" "" Route.licenseCreate⟩

end MySoc
